import Mathlib

/-!
Verification of the `ra` CLI agent core (src/ra/src/agent.rs, src/ra/src/tools.rs).

This file shallowly embeds the pure content of the agent loop:
* the conversation-pruning algorithm (`prune_messages`, `extract_tool_call_ids`),
* the context-overflow recovery loop of `Agent::run` (lines 127-164),
* the request retry loop of `Agent::send_request` (HTTP attempts as an oracle),
* the tool-call processing block of `Agent::run` (lines 186-241, tool execution
  as an oracle),
* the budget checks at the top of each step of `Agent::run` (lines 97-113),
* the backoff delay computation (`sleep_backoff`, `parse_retry_after_secs`).

Machine integers (`u64`) are modelled as `Nat` with saturation written out where
the source uses `saturating_mul` / `saturating_add`. Network and process effects
are modelled as explicit oracles (functions supplied as parameters); the
interaction of a run with its environment is then a pure function of those
oracles, and independence from an oracle argument expresses that the oracle is
never consulted on that path.
-/

/-- A chat message as `prune_messages` observes it. In the source a message is a
`serde_json::Value`; pruning only inspects `role` (a string, possibly absent),
`tool_call_id` (a string, possibly absent) and `tool_calls` (an array whose
elements may or may not carry a string `id`). Those observations are the fields
here; `content` stands for the remaining payload so that distinct messages
stay distinct. -/
structure Msg where
  role : Option String
  content : String := ""
  tool_call_id : Option String := none
  tool_calls : Option (List (Option String)) := none
  deriving Repr, DecidableEq

/-- The test `msg.get("role").and_then(Value::as_str).is_some_and(|r| r == s)`
used by the partition and anchor searches in `prune_messages` (agent.rs lines
808-817, 826-830, 841-853). -/
def roleIs (m : Msg) (s : String) : Bool :=
  m.role == some s

/-- `extract_tool_call_ids` (agent.rs lines 888-898): collect the `id` string of
every entry of the `tool_calls` array of the message. The source stores them in
a `HashSet`; a list used only through membership models the same set. -/
def extract_tool_call_ids (m : Msg) : List String :=
  match m.tool_calls with
  | some tcs => tcs.filterMap (fun x => x)
  | none => []

/-- The `system` half of the partition loop in `prune_messages`
(agent.rs lines 806-818): messages whose `role` is the string `"system"`,
in their original order. -/
def systemOf (messages : List Msg) : List Msg :=
  messages.filter (fun m => roleIs m "system")

/-- The `non_system` half of the partition loop in `prune_messages`
(agent.rs lines 806-818). -/
def nonSystemOf (messages : List Msg) : List Msg :=
  messages.filter (fun m => !(roleIs m "system"))

/-- The cut-point computation of `prune_messages` (agent.rs lines 839-853):
`drop_target = rest.len() / 3`, clamped by `min` to `rest.len()`, then advanced
to the index of the first `user`-role message at or after it when one exists. -/
def cutIndex (rest : List Msg) : Nat :=
  let dropTarget := rest.length / 3
  let cutIdx := min dropTarget rest.length
  match (rest.drop cutIdx).findIdx? (fun m => roleIs m "user") with
  | some j => cutIdx + j
  | none => cutIdx

/-- The re-validation pass of `prune_messages` (agent.rs lines 859-882): walk
the preserved messages with a set of active tool-call ids; an `assistant`
message replaces the active set with its own tool-call ids and is kept; a
`tool` message is kept only if it carries a `tool_call_id` in the active set;
a `user` message clears the active set and is kept; any other role is kept
unchanged. The role string is
`msg.get("role").and_then(Value::as_str).unwrap_or("")`. -/
def pruneValid (active : List String) : List Msg → List Msg
  | [] => []
  | m :: ms =>
    let role := m.role.getD ""
    if role = "assistant" then m :: pruneValid (extract_tool_call_ids m) ms
    else if role = "tool" then
      match m.tool_call_id with
      | some callId =>
        if active.contains callId then m :: pruneValid active ms
        else pruneValid active ms
      | none => pruneValid active ms
    else if role = "user" then m :: pruneValid [] ms
    else m :: pruneValid active ms

/-- `prune_messages` (agent.rs lines 805-886). Partition into system and
non-system; if the non-system part has no `user` message return
`system ++ non_system` unchanged; otherwise keep the first `user` message (the
anchor), cut the tail after the anchor at `cutIndex`, and re-validate tool
pairing. The `[]` arm of the inner match is unreachable: `findIdx? = some i`
forces `i` to be in range, so the drop is nonempty. -/
def prune_messages (messages : List Msg) : List Msg :=
  let system := systemOf messages
  let non_system := nonSystemOf messages
  match non_system.findIdx? (fun m => roleIs m "user") with
  | none => system ++ non_system
  | some taskIdx =>
    match non_system.drop taskIdx with
    | [] => system
    | taskMsg :: rest => system ++ pruneValid [] (taskMsg :: rest.drop (cutIndex rest))

/-- The tool-pairing condition of spec section 8 and claim C1, as a decidable
check: scanning with an active id set, every `tool`-role message must carry a
`tool_call_id` contained in the tool-call ids of the nearest preceding
`assistant` message, with `user` messages clearing the set and all other roles
leaving it unchanged. -/
def toolPairing (active : List String) : List Msg → Bool
  | [] => true
  | m :: ms =>
    let role := m.role.getD ""
    if role = "assistant" then toolPairing (extract_tool_call_ids m) ms
    else if role = "tool" then
      (match m.tool_call_id with
       | some callId => active.contains callId
       | none => false) && toolPairing active ms
    else if role = "user" then toolPairing [] ms
    else toolPairing active ms

/-- Cut point as worded by claim C2 and spec section 4.1 steps 3-4: the default
cut is `len(rest) / 3` by integer division, advanced forward to the index of
the next `user`-role message in `rest` at or after that point if one exists,
and otherwise left at `len(rest) / 3`. Written from the words of the
specification, to be compared with `cutIndex`, which is written from the
source. -/
def cutIndexSpec (rest : List Msg) : Nat :=
  match (rest.drop (rest.length / 3)).findIdx? (fun m => roleIs m "user") with
  | some j => rest.length / 3 + j
  | none => rest.length / 3

/-- Outcome of one `send_request` call as seen by the recovery loop of
`Agent::run` (lines 117-155): success with a completion, an error whose text
matches `is_context_error` (case-insensitive "context" and "length"), or any
other error. -/
inductive SendOutcome (α : Type) where
  | ok (result : α)
  | contextLengthErr
  | fatalErr
  deriving DecidableEq

/-- Result of the context-overflow recovery loop of `Agent::run` (lines
127-164): a recovered completion with the pruned conversation, the clean
"Terminated: context length exceeded." outcome (an `Ok` return of `run`), or a
fatal non-context error (an `Err` return of `run`). -/
inductive RecoveryResult (α : Type) where
  | recovered (messages : List Msg) (result : α)
  | exhausted (message : String) (messages : List Msg)
  | failed (messages : List Msg)
  deriving DecidableEq

/-- The context-overflow recovery loop of `Agent::run` (agent.rs lines
129-164), with `send_request` abstracted as the oracle `send`. Each iteration
replaces the conversation by its pruning; if the length did not strictly
decrease the loop breaks with no recovery, which the caller turns into the
"Terminated: context length exceeded." outcome; otherwise the request is
retried: success recovers, another context-length error iterates, any other
error is fatal. Terminates because the tracked length strictly decreases. -/
def pruneRecoveryLoop {α : Type} (send : List Msg → SendOutcome α)
    (messages : List Msg) (lastLen : Nat) : RecoveryResult α :=
  if _h : lastLen ≤ (prune_messages messages).length then
    .exhausted "Terminated: context length exceeded." (prune_messages messages)
  else
    match send (prune_messages messages) with
    | .ok r => .recovered (prune_messages messages) r
    | .fatalErr => .failed (prune_messages messages)
    | .contextLengthErr =>
      pruneRecoveryLoop send (prune_messages messages) (prune_messages messages).length
  termination_by lastLen
  decreasing_by simp_wf; omega

/-- A JSON value, as far as `parse_submit_answer` (agent.rs lines 629-636)
needs to observe one. -/
inductive JVal where
  | jnull
  | jbool (b : Bool)
  | jnum (n : Int)
  | jstr (s : String)
  | jarr (elems : List JVal)
  | jobj (fields : List (String × JVal))
  deriving Repr

/-- `ToolFunction` (protocol.rs): tool name plus raw argument string. The
argument string is modelled by its parse: `some v` when the raw string is valid
JSON with value `v`, `none` when it is not valid JSON. -/
structure ToolFunction where
  name : String
  arguments : Option JVal
  deriving Repr

/-- `ToolCall` (protocol.rs): id, call type and function payload. -/
structure ToolCall where
  id : String
  call_type : String
  function : ToolFunction
  deriving Repr

/-- `parse_submit_answer` (agent.rs lines 629-636): deserialize the argument
string into a struct with a required string field `answer` (serde accepts
extra fields); any other shape, or invalid JSON, is an error, modelled as
`none`. -/
def parse_submit_answer (arguments : Option JVal) : Option String :=
  match arguments with
  | some (.jobj fields) =>
    match fields.lookup "answer" with
    | some (.jstr s) => some s
    | _ => none
  | _ => none

/-- Lowercase hexadecimal digit, as used by the serde_json string escaper. -/
def hexDigit (n : Nat) : Char :=
  if n < 10 then Char.ofNat (48 + n) else Char.ofNat (87 + n)

/-- Escaping of one character in a serde_json string literal: quote and
backslash are escaped, the five short control escapes are used, remaining
control characters become lowercase `\u00XX`, everything else is copied. -/
def jsonEscapeChar (c : Char) : String :=
  if c = '"' then "\\\""
  else if c = '\\' then "\\\\"
  else if c = Char.ofNat 8 then "\\b"
  else if c = Char.ofNat 9 then "\\t"
  else if c = Char.ofNat 10 then "\\n"
  else if c = Char.ofNat 12 then "\\f"
  else if c = Char.ofNat 13 then "\\r"
  else if c.toNat < 32 then
    "\\u00" ++ String.singleton (hexDigit (c.toNat / 16)) ++
      String.singleton (hexDigit (c.toNat % 16))
  else String.singleton c

/-- A serde_json string literal: quoted, characters escaped. -/
def jsonEncodeStr (s : String) : String :=
  "\"" ++ String.join (s.toList.map jsonEscapeChar) ++ "\""

/-- `tool_error` (tools.rs lines 96-101): the compact serde_json serialization
of a JSON object whose single field `error` holds the message. -/
def tool_error (message : String) : String :=
  "\x7b\"error\":" ++ jsonEncodeStr message ++ "\x7d"

/-- Events emitted by the tool-call processing block and the budget checks of
`Agent::run`, at the granularity the claims describe: an agent-message item, a
turn-completed event, a warning item (`log_warning_item`), the
command-execution-started item of generic dispatch (`prepare_tool_logging` +
`log_command_execution_started`, skipped for `apply_patch`), and the completed
tool-result item (`log_tool_result`). -/
inductive Event where
  | agentMessage (text : String)
  | turnCompleted
  | warningItem (message : String)
  | commandStarted (toolName : String)
  | toolResult (toolName : String) (success : Bool)
  deriving Repr, DecidableEq

/-- How the tool-call block of `Agent::run` (lines 186-241) leaves the step
loop: return `Ok(answer)` from `run` (submit intercepted), return `Err` from
`run` (the `?` on `parse_submit_answer`), or fall through to `continue`. -/
inductive StepOutcome where
  | returned (answer : String)
  | errored
  | continued
  deriving Repr, DecidableEq

/-- Result of `execute_tool` as the dispatcher sees it: an output string, or an
error whose rendered message (`format!` with the alternate flag) is carried. -/
inductive ExecResult where
  | ok (value : String)
  | err (message : String)
  deriving Repr, DecidableEq

/-- Effect summary of one pass through the tool-call block of `Agent::run`:
the loop outcome, the `(tool_call_id, content)` pairs of the tool-role messages
appended to the conversation in order, the calls handed to `execute_tool` in
order, and the emitted events in order. -/
structure ToolStep where
  outcome : StepOutcome
  toolMessages : List (String × String)
  dispatched : List ToolCall
  events : List Event
  deriving Repr

/-- The fixed text used for every tool call after the first in one response
(agent.rs lines 228-237). -/
def multipleToolCallsMsg : String := "Multiple tool calls in one step are not supported."

/-- The tool-call processing block of `Agent::run` (agent.rs lines 186-241),
with `execute_tool` abstracted as the oracle `exec`. The first call is special:
an enabled `submit` is intercepted before dispatch (parse failure propagates as
an `Err` of `run`, with no message and no event); otherwise the call is
dispatched, its result (or its error converted through `tool_error`) becomes a
tool message, and the corresponding command/tool items are logged. Every later
call gets a synthetic `tool_error multipleToolCallsMsg` message and a warning
item, without invocation. -/
def processToolCalls (submitEnabled : Bool) (exec : ToolCall → ExecResult) :
    List ToolCall → ToolStep
  | [] => ⟨.continued, [], [], []⟩
  | first :: others =>
    if first.function.name = "submit" ∧ submitEnabled = true then
      match parse_submit_answer first.function.arguments with
      | none => ⟨.errored, [], [], []⟩
      | some answer =>
        ⟨.returned answer, [], [],
          (if answer.trim.isEmpty then [] else [Event.agentMessage answer]) ++
            [Event.turnCompleted]⟩
    else
      let result := exec first
      let firstContent := match result with | .ok v => v | .err e => tool_error e
      let firstSuccess := match result with | .ok _ => true | .err _ => false
      ⟨.continued,
        (first.id, firstContent) ::
          others.map (fun c => (c.id, tool_error multipleToolCallsMsg)),
        [first],
        ((if first.function.name = "apply_patch" then [] else
            [Event.commandStarted first.function.name]) ++
          [Event.toolResult first.function.name firstSuccess]) ++
          others.map (fun _ => Event.warningItem multipleToolCallsMsg)⟩

/-- Body outcome of one successful-status HTTP attempt in `send_request`
(agent.rs lines 355-371): the JSON body fails to parse, parses with no
choices, or yields the first choice, abstracted as a numeric payload. -/
inductive RespBody where
  | parseErr
  | noChoices
  | ok (payload : Nat)
  deriving Repr, DecidableEq

/-- One attempt of `send_request` as the loop observes it: the POST itself
fails (`should_retry_reqwest_error` decides retryability), reading the body
fails (same classification), or a response arrives with a status, an optional
parsed `Retry-After` delta-seconds value, and a body. -/
inductive AttemptResult where
  | connectErr (retryable : Bool)
  | readErr (retryable : Bool)
  | response (status : Nat) (retryAfterSecs : Option Nat) (body : RespBody)
  deriving Repr, DecidableEq

/-- Classification of the fatal errors `send_request` can return. -/
inductive FatalKind where
  | transport
  | httpError (status : Nat)
  | badBody
  | noChoices
  | exhaustedRetries
  deriving Repr, DecidableEq

/-- Result of `send_request`: the first choice of a successful response, or a
fatal error. -/
inductive SendResult where
  | success (payload : Nat)
  | fatal (kind : FatalKind)
  deriving Repr, DecidableEq

/-- `should_retry_status` (agent.rs lines 695-697). -/
def should_retry_status (status : Nat) : Bool :=
  status == 429 || status == 500 || status == 502 || status == 503 || status == 504

/-- `StatusCode::is_success` of reqwest: 200 through 299. -/
def statusSuccess (status : Nat) : Bool :=
  decide (200 ≤ status ∧ status < 300)

/-- `MAX_RETRIES` (agent.rs line 275). -/
def MAX_RETRIES : Nat := 2

/-- The attempt loop of `Agent::send_request` (agent.rs lines 278-372), with
the network abstracted as the `script` oracle mapping attempt numbers to
`AttemptResult`. The list argument carries the remaining attempt numbers of
`for attempt in 0..=MAX_RETRIES`; `lastHttpErr` mirrors `last_http_err`; the
final component counts attempts actually made. Retry conditions follow lines
288, 311 and 327-346: transport and body-read errors retry when retryable and
`attempt < MAX_RETRIES`; a non-success status retries when
`attempt < MAX_RETRIES`, the status is in `should_retry_status`, and, for 429
only, `retry_429` is configured or a `Retry-After` value is present. -/
def sendLoop (retry429 : Bool) (script : Nat → AttemptResult) :
    List Nat → Option FatalKind → Nat → SendResult × Nat
  | [], lastHttpErr, used => (.fatal (lastHttpErr.getD .exhaustedRetries), used)
  | attempt :: restAttempts, lastHttpErr, used =>
    match script attempt with
    | .connectErr r =>
      if attempt < MAX_RETRIES ∧ r = true then
        sendLoop retry429 script restAttempts lastHttpErr (used + 1)
      else (.fatal .transport, used + 1)
    | .readErr r =>
      if attempt < MAX_RETRIES ∧ r = true then
        sendLoop retry429 script restAttempts lastHttpErr (used + 1)
      else (.fatal .transport, used + 1)
    | .response status retryAfterSecs body =>
      if statusSuccess status = true then
        match body with
        | .parseErr => (.fatal .badBody, used + 1)
        | .noChoices => (.fatal .noChoices, used + 1)
        | .ok p => (.success p, used + 1)
      else
        if attempt < MAX_RETRIES ∧
            (if status = 429 then retry429 || retryAfterSecs.isSome else true) = true ∧
            should_retry_status status = true then
          sendLoop retry429 script restAttempts (some (.httpError status)) (used + 1)
        else (.fatal (.httpError status), used + 1)

/-- `Agent::send_request` (agent.rs lines 271-377): run the attempt loop over
attempts 0, 1, 2 with no recorded HTTP error. -/
def send_request (retry429 : Bool) (script : Nat → AttemptResult) : SendResult × Nat :=
  sendLoop retry429 script [0, 1, 2] none 0

/-- The `time_limit` check of `Agent::run` (agent.rs lines 106-113), durations
in milliseconds. -/
def time_check (timeLimit : Option Nat) (elapsedMs : Nat) : Option String :=
  match timeLimit with
  | some l => if l ≤ elapsedMs then some "Terminated: time_limit reached." else none
  | none => none

/-- The budget checks at the top of every step of `Agent::run` (agent.rs lines
97-113): first `steps >= max_steps` with its formatted message, then the time
limit. `some message` means the run returns `Ok(message)` after emitting a
warning item and a turn-completed event. -/
def budget_check (maxSteps : Option Nat) (steps : Nat)
    (timeLimit : Option Nat) (elapsedMs : Nat) : Option String :=
  match maxSteps with
  | some m =>
    if m ≤ steps then some ("Terminated: max_steps (" ++ toString m ++ ") reached.")
    else time_check timeLimit elapsedMs
  | none => time_check timeLimit elapsedMs

/-- How a step of `Agent::run` begins: either the budget check terminates the
run (an `Ok` return carrying the message, after a warning item and
`turn.completed`), or the step proceeds to build and send a request, modelled
by consulting the `transport` oracle. -/
inductive StepStart (τ : Type) where
  | terminated (message : String) (events : List Event)
  | proceeded (result : τ)

/-- The top of one step of `Agent::run` (agent.rs lines 97-117): budget check,
then — only if it passes — the request is built and sent via `transport`. -/
def step_start {τ : Type} (maxSteps : Option Nat) (steps : Nat)
    (timeLimit : Option Nat) (elapsedMs : Nat) (transport : Unit → τ) : StepStart τ :=
  match budget_check maxSteps steps timeLimit elapsedMs with
  | some msg => .terminated msg [Event.warningItem msg, Event.turnCompleted]
  | none => .proceeded (transport ())

/-- Largest u64 value, the saturation bound of `saturating_mul` and
`saturating_add`. -/
def u64Max : Nat := 2 ^ 64 - 1

/-- `str::parse::<u64>` on a string: an optional leading plus sign, then at
least one ASCII digit, rejecting values above the u64 range. -/
def parse_u64 (t : String) : Option Nat :=
  let digits := if t.startsWith "+" then t.drop 1 else t
  if digits.isEmpty then none
  else
    match digits.toNat? with
    | some n => if n ≤ u64Max then some n else none
    | none => none

/-- `parse_retry_after_secs` (agent.rs lines 732-736): trim the header value
and parse it as u64 delta-seconds; an HTTP-date, or any other shape, is
`none`. The header-to-string step (`to_str`) is modelled by taking the value
as a string. -/
def parse_retry_after_secs (headerValue : String) : Option Nat :=
  parse_u64 headerValue.trim

/-- The delay computed by `sleep_backoff` (agent.rs lines 738-749), in
milliseconds, with the wall clock abstracted as `nowMillis`:
`base_ms = 250.saturating_mul(1 << attempt.min(10))`, capped at 3000; jitter is
`now_millis() % 50`; a present `retryAfterSecs` replaces the capped base by its
`saturating_mul` by 1000; the jitter is added with `saturating_add`. All u64
saturations are written as `min _ u64Max`. -/
def sleep_backoff_delay (attempt : Nat) (retryAfterSecs : Option Nat) (nowMillis : Nat) : Nat :=
  let base_ms := min (250 * 2 ^ min attempt 10) u64Max
  let capped_ms := min base_ms 3000
  let jitter_ms := nowMillis % 50
  min ((match retryAfterSecs with
        | some s => min (s * 1000) u64Max
        | none => capped_ms) + jitter_ms) u64Max

/-- Sample system message for concrete instantiations. -/
def sysMsg : Msg := ⟨some "system", "sys-prompt", none, none⟩

/-- Sample user task message for concrete instantiations. -/
def userMsg : Msg := ⟨some "user", "task", none, none⟩

/-- Sample assistant message issuing tool call "call1". -/
def asstMsg : Msg := ⟨some "assistant", "a1", none, some [some "call1"]⟩

/-- Sample tool message answering tool call "call1". -/
def toolMsg : Msg := ⟨some "tool", "out", some "call1", none⟩

/-- Sample well-formed conversation. -/
def sampleConv : List Msg := [sysMsg, userMsg, asstMsg, toolMsg]

/-- A lone tool-role message whose `tool_call_id` has no preceding assistant:
the conversation used by the C1 counterexample. -/
def orphanToolMsg : Msg := ⟨some "tool", "out", some "x", none⟩

/-- A submit tool call with a valid string `answer` argument. -/
def cexSubmitCall : ToolCall :=
  ⟨"id1", "function", ⟨"submit", some (.jobj [("answer", .jstr "done")])⟩⟩

/-- A second tool call in the same response. -/
def cexOtherCall : ToolCall := ⟨"id2", "function", ⟨"shell_command", none⟩⟩

/-- A generic (non-submit) first tool call. -/
def cexShellCall : ToolCall := ⟨"id3", "function", ⟨"shell_command", none⟩⟩

/-- A submit tool call whose `answer` field is not a string. -/
def cexBadSubmitCall : ToolCall :=
  ⟨"id4", "function", ⟨"submit", some (.jobj [("answer", .jnum 3)])⟩⟩

/-- A tool-execution oracle that always succeeds. -/
def cexExec : ToolCall → ExecResult := fun _ => .ok "out"

/-- A tool-execution oracle that always fails with message "boom". -/
def cexFailExec : ToolCall → ExecResult := fun _ => .err "boom"

/-- Attempt script: 503 on the first attempt, then 200 with payload 7. -/
def script503 : Nat → AttemptResult := fun n =>
  if n = 0 then .response 503 none .parseErr else .response 200 none (.ok 7)

/-- Re-validation output always passes the tool-pairing check that starts from
the same active set. -/
theorem toolPairing_pruneValid (l : List Msg) : ∀ a, toolPairing a (pruneValid a l) = true := by
  induction l with
  | nil => intro a; simp [pruneValid, toolPairing]
  | cons m ms ih =>
    intro a
    by_cases h1 : m.role.getD "" = "assistant"
    · simp [pruneValid, toolPairing, h1, ih]
    · by_cases h2 : m.role.getD "" = "tool"
      · cases hc : m.tool_call_id with
        | none => simp [pruneValid, toolPairing, h1, h2, hc, ih a]
        | some cid =>
          by_cases hm : cid ∈ a
          · simp [pruneValid, toolPairing, h1, h2, hc, hm, ih a]
          · simp [pruneValid, toolPairing, h1, h2, hc, hm, ih a]
      · by_cases h3 : m.role.getD "" = "user"
        · simp [pruneValid, toolPairing, h1, h2, h3, ih]
        · simp [pruneValid, toolPairing, h1, h2, h3, ih a]

/-- A message whose role tests as "system" has getD role "system". -/
theorem roleIs_system_getD {m : Msg} (h : roleIs m "system" = true) :
    m.role.getD "" = "system" := by
  simp [roleIs] at h
  simp [h]

/-- A message whose role tests as "user" has getD role "user". -/
theorem roleIs_user_getD {m : Msg} (h : roleIs m "user" = true) :
    m.role.getD "" = "user" := by
  simp [roleIs] at h
  simp [h]

/-- A prefix of system-role messages does not affect the pairing check. -/
theorem toolPairing_system_append (s r : List Msg) (a : List String)
    (hs : ∀ m ∈ s, roleIs m "system" = true) : toolPairing a (s ++ r) = toolPairing a r := by
  induction s with
  | nil => simp
  | cons m ms ih =>
    have hrole : m.role.getD "" = "system" := roleIs_system_getD (hs m (by simp))
    simp only [List.cons_append, toolPairing, hrole]
    norm_num
    exact ih (fun x hx => hs x (by simp [hx]))

/-- Re-validation never lengthens its input. -/
theorem pruneValid_length_le (l : List Msg) : ∀ a, (pruneValid a l).length ≤ l.length := by
  induction l with
  | nil => intro a; simp [pruneValid]
  | cons m ms ih =>
    intro a
    by_cases h1 : m.role.getD "" = "assistant"
    · simp only [pruneValid, h1, if_pos]
      simpa using ih _
    · by_cases h2 : m.role.getD "" = "tool"
      · cases hc : m.tool_call_id with
        | none =>
          simp [pruneValid, h1, h2, hc]
          have := ih a
          omega
        | some cid =>
          by_cases hm : cid ∈ a
          · simp [pruneValid, h1, h2, hc, hm]
            have := ih a
            omega
          · simp [pruneValid, h1, h2, hc, hm]
            have := ih a
            omega
      · by_cases h3 : m.role.getD "" = "user"
        · simp [pruneValid, h1, h2, h3]
          have := ih []
          omega
        · simp [pruneValid, h1, h2, h3]
          have := ih a
          omega

/-- The stable partition of `prune_messages` preserves total length. -/
theorem systemOf_nonSystemOf_length (l : List Msg) :
    (systemOf l).length + (nonSystemOf l).length = l.length := by
  induction l with
  | nil => simp [systemOf, nonSystemOf]
  | cons m ms ih =>
    by_cases h : roleIs m "system"
    · simp [systemOf, nonSystemOf, List.filter_cons, h] at *
      omega
    · simp [systemOf, nonSystemOf, List.filter_cons, h] at *
      omega

/-- A found index points at an element satisfying the predicate: dropping to it
exposes that element at the head. -/
theorem findIdx?_drop_head (p : Msg → Bool) (l : List Msg) (i : Nat)
    (h : l.findIdx? p = some i) : ∃ m t, l.drop i = m :: t ∧ p m = true := by
  induction l generalizing i with
  | nil => simp [List.findIdx?_nil] at h
  | cons x xs ih =>
    rw [List.findIdx?_cons] at h
    by_cases hp : p x
    · simp [hp] at h
      exact ⟨x, xs, by simp [← h], hp⟩
    · simp [hp] at h
      obtain ⟨j, hj, rfl⟩ := h
      obtain ⟨m, t, hmt, hpm⟩ := ih j hj
      exact ⟨m, t, by simpa using hmt, hpm⟩

/-- A list containing an element satisfying the predicate has a found index. -/
theorem findIdx?_isSome_of_mem {p : Msg → Bool} {l : List Msg} {m : Msg}
    (hm : m ∈ l) (hp : p m = true) : ∃ i, l.findIdx? p = some i := by
  induction l with
  | nil => simp at hm
  | cons x xs ih =>
    rw [List.findIdx?_cons]
    by_cases hx : p x
    · exact ⟨0, by simp [hx]⟩
    · rcases List.mem_cons.mp hm with rfl | hm2
      · exact absurd hp hx
      · obtain ⟨j, hj⟩ := ih hm2
        exact ⟨j + 1, by simp [hx, hj]⟩

/-- Every `prune_messages` output extends the system prefix. -/
theorem prune_messages_decomp (msgs : List Msg) :
    ∃ t, prune_messages msgs = systemOf msgs ++ t := by
  simp only [prune_messages]
  cases h : (nonSystemOf msgs).findIdx? (fun m => roleIs m "user") with
  | none => exact ⟨_, rfl⟩
  | some i =>
    cases hd : (nonSystemOf msgs).drop i with
    | nil => exact ⟨[], by simp [hd]⟩
    | cons task rest =>
      refine ⟨pruneValid [] (task :: rest.drop (cutIndex rest)), ?_⟩
      simp [hd]

/-- The clamp in `cutIndex` is redundant, so the source cut point agrees with
the cut point worded by the specification. -/
theorem cutIndex_eq_spec (rest : List Msg) : cutIndex rest = cutIndexSpec rest := by
  simp only [cutIndex, cutIndexSpec, Nat.min_eq_left (Nat.div_le_self _ _)]

/-- The attempt counter of `sendLoop` is bounded by the number of remaining
attempts. -/
theorem sendLoop_count_le (retry429 : Bool) (script : Nat → AttemptResult) :
    ∀ (l : List Nat) (e : Option FatalKind) (u : Nat),
      (sendLoop retry429 script l e u).2 ≤ u + l.length := by
  intro l
  induction l with
  | nil => intro e u; simp [sendLoop]
  | cons a rest ih =>
    intro e u
    cases hs : script a with
    | connectErr r =>
      simp only [sendLoop, hs]
      split
      · have := ih e (u + 1)
        simp only [List.length_cons]
        omega
      · simp only [List.length_cons]
        omega
    | readErr r =>
      simp only [sendLoop, hs]
      split
      · have := ih e (u + 1)
        simp only [List.length_cons]
        omega
      · simp only [List.length_cons]
        omega
    | response status ra body =>
      simp only [sendLoop, hs]
      split
      · cases body with
        | parseErr => simp
        | noChoices => simp
        | ok p => simp
      · split <;> split
        · have := ih (some (.httpError status)) (u + 1)
          simp only [List.length_cons]
          omega
        · simp only [List.length_cons]
          omega
        · have := ih (some (.httpError status)) (u + 1)
          simp only [List.length_cons]
          omega
        · simp only [List.length_cons]
          omega

/-- C1 (counterexample): the pruning invariant as stated quantifies over every
message sequence, but on a sequence whose non-system part has no user-role
message `prune_messages` returns the input unchanged (agent.rs lines 831-834)
without re-validating tool pairing, so an orphaned tool message survives: the
output for the single orphan tool message fails the pairing check while being
exactly the input. -/
theorem c1_pruning_invariant_counterexample :
    prune_messages [orphanToolMsg] = [orphanToolMsg] ∧
    toolPairing [] (prune_messages [orphanToolMsg]) = false := by decide

/-- C1 (amended): for every message sequence, the output of `prune_messages`
begins with all original system-role messages in their original order, and
retains the first user-role message of the non-system part when one exists;
and — amended — whenever the non-system part contains at least one user-role
message, the output contains no tool-role message whose `tool_call_id` is
absent from the set of tool-call ids of the nearest preceding retained
assistant-role message (a user-role message clears that set). Without a user
message the code returns system plus the unmodified non-system part, which can
retain orphaned tool messages. -/
theorem c1_pruning_invariant (msgs : List Msg) :
    (prune_messages msgs).take (systemOf msgs).length = systemOf msgs ∧
    (∀ i task rest2, (nonSystemOf msgs).findIdx? (fun m => roleIs m "user") = some i →
      (nonSystemOf msgs).drop i = task :: rest2 → task ∈ prune_messages msgs) ∧
    ((∃ m ∈ nonSystemOf msgs, roleIs m "user" = true) →
      toolPairing [] (prune_messages msgs) = true) := by
  refine ⟨?_, ?_, ?_⟩
  · obtain ⟨t, ht⟩ := prune_messages_decomp msgs
    rw [ht]
    exact List.take_left _ _
  · intro i task rest2 hi hdrop
    obtain ⟨m', t', hmt, hp⟩ := findIdx?_drop_head _ _ _ hi
    rw [hdrop] at hmt
    injection hmt with e1 e2
    subst e1
    have hrole := roleIs_user_getD hp
    simp only [prune_messages, hi, hdrop]
    simp [pruneValid, hrole]
  · rintro ⟨m, hmem, huser⟩
    obtain ⟨i, hi⟩ := findIdx?_isSome_of_mem (p := fun m => roleIs m "user") hmem huser
    obtain ⟨task, rest2, hdrop, htask⟩ := findIdx?_drop_head _ _ _ hi
    simp only [prune_messages, hi, hdrop]
    rw [toolPairing_system_append]
    · exact toolPairing_pruneValid _ []
    · intro x hx
      simp only [systemOf] at hx
      exact (List.mem_filter.mp hx).2

/-- C1 witness: the amended invariant instantiated on a concrete four-message
conversation. -/
theorem c1_pruning_invariant_witness :
    (prune_messages sampleConv).take (systemOf sampleConv).length = systemOf sampleConv ∧
    userMsg ∈ prune_messages sampleConv ∧
    toolPairing [] (prune_messages sampleConv) = true :=
  ⟨(c1_pruning_invariant sampleConv).1,
   (c1_pruning_invariant sampleConv).2.1 0 userMsg [asstMsg, toolMsg] (by decide) (by decide),
   (c1_pruning_invariant sampleConv).2.2 ⟨userMsg, by decide, by decide⟩⟩

/-- C2: when the non-system part has no user-role message, `prune_messages`
returns the system messages concatenated with the unmodified non-system
messages; when the first user-role message (the anchor) exists, the cut index
used by the source equals the one worded by the claim — `len(rest) / 3` by
integer division, advanced to the next user-role boundary at or after that
point when one exists — and the output is the system messages followed by the
re-validated `anchor :: rest[cut_idx:]`. -/
theorem c2_prune_cut_point (msgs : List Msg) :
    ((nonSystemOf msgs).findIdx? (fun m => roleIs m "user") = none →
      prune_messages msgs = systemOf msgs ++ nonSystemOf msgs) ∧
    (∀ i task rest, (nonSystemOf msgs).findIdx? (fun m => roleIs m "user") = some i →
      (nonSystemOf msgs).drop i = task :: rest →
      cutIndex rest = cutIndexSpec rest ∧
      prune_messages msgs =
        systemOf msgs ++ pruneValid [] (task :: rest.drop (cutIndexSpec rest))) := by
  constructor
  · intro h
    simp [prune_messages, h]
  · intro i task rest hi hdrop
    refine ⟨cutIndex_eq_spec rest, ?_⟩
    simp only [prune_messages, hi, hdrop, cutIndex_eq_spec]

/-- C2 witness: the cut-point description instantiated on a concrete
conversation with anchor at index 0. -/
theorem c2_prune_cut_point_witness :
    cutIndex [asstMsg, toolMsg] = cutIndexSpec [asstMsg, toolMsg] ∧
    prune_messages sampleConv =
      systemOf sampleConv ++
        pruneValid [] (userMsg :: ([asstMsg, toolMsg] : List Msg).drop
          (cutIndexSpec [asstMsg, toolMsg])) :=
  (c2_prune_cut_point sampleConv).2 0 userMsg [asstMsg, toolMsg] (by decide) (by decide)

/-- C3: pruning never lengthens a message sequence (repeated application
strictly decreases the length or stabilizes), and the recovery loop of
`Agent::run` stops retrying as soon as a prune fails to strictly shrink the
sequence, returning the clean "Terminated: context length exceeded." outcome
instead of looping. -/
theorem c3_pruning_convergence :
    (∀ msgs : List Msg, (prune_messages msgs).length ≤ msgs.length) ∧
    (∀ (α : Type) (send : List Msg → SendOutcome α) (msgs : List Msg) (lastLen : Nat),
      lastLen ≤ (prune_messages msgs).length →
      pruneRecoveryLoop send msgs lastLen =
        .exhausted "Terminated: context length exceeded." (prune_messages msgs)) := by
  constructor
  · intro msgs
    have h3 := systemOf_nonSystemOf_length msgs
    simp only [prune_messages]
    cases h : (nonSystemOf msgs).findIdx? (fun m => roleIs m "user") with
    | none => simp; omega
    | some i =>
      cases hd : (nonSystemOf msgs).drop i with
      | nil => simp [hd]; omega
      | cons task rest =>
        simp only [hd, List.length_append]
        have h1 := pruneValid_length_le (task :: rest.drop (cutIndex rest)) []
        have h2 : (nonSystemOf msgs).length - i = rest.length + 1 := by
          rw [← List.length_drop, hd]
          simp
        have h4 : (rest.drop (cutIndex rest)).length ≤ rest.length := by
          simp [List.length_drop]
        simp only [List.length_cons] at h1
        omega
  · intro α send msgs lastLen h
    unfold pruneRecoveryLoop
    simp [h]

/-- C3 witness: the loop applied to the empty conversation, whose prune cannot
shrink, stops at once with the context-length-exceeded outcome. -/
theorem c3_pruning_convergence_witness :
    (prune_messages ([] : List Msg)).length ≤ ([] : List Msg).length ∧
    ((0 : Nat) ≤ (prune_messages ([] : List Msg)).length ∧
      pruneRecoveryLoop (fun _ => (SendOutcome.contextLengthErr : SendOutcome Nat)) [] 0 =
        .exhausted "Terminated: context length exceeded." (prune_messages [])) :=
  ⟨c3_pruning_convergence.1 [],
   Nat.zero_le _,
   c3_pruning_convergence.2 Nat (fun _ => SendOutcome.contextLengthErr) [] 0 (Nat.zero_le _)⟩

/-- C4: `send_request` makes at most `MAX_RETRIES` additional attempts (three
in total); a non-success status outside 429, 500, 502, 503, 504 is returned
immediately as a fatal error; a 429 without `Retry-After` and without the
retry-on-429 configuration is returned immediately as a fatal error; a 429
with either enabler is retried, as are 503 and retryable transport errors,
with a following 200 yielding the success result to the caller; a
non-retryable transport error is immediately fatal. -/
theorem c4_send_request_retry_policy :
    (∀ (r : Bool) (s : Nat → AttemptResult), (send_request r s).2 ≤ MAX_RETRIES + 1) ∧
    (∀ (r : Bool) (s : Nat → AttemptResult) (status : Nat) (ra : Option Nat) (body : RespBody),
      statusSuccess status = false → should_retry_status status = false →
      s 0 = .response status ra body →
      send_request r s = (.fatal (.httpError status), 1)) ∧
    (∀ (s : Nat → AttemptResult) (body : RespBody),
      s 0 = .response 429 none body →
      send_request false s = (.fatal (.httpError 429), 1)) ∧
    (∀ (r : Bool) (s : Nat → AttemptResult) (ra : Option Nat) (body : RespBody) (p : Nat),
      s 0 = .response 429 ra body → (r = true ∨ ra.isSome = true) →
      s 1 = .response 200 none (.ok p) →
      send_request r s = (.success p, 2)) ∧
    (∀ (r : Bool) (s : Nat → AttemptResult) (ra ra2 : Option Nat) (body : RespBody) (p : Nat),
      s 0 = .response 503 ra body → s 1 = .response 200 ra2 (.ok p) →
      send_request r s = (.success p, 2)) ∧
    (∀ (r : Bool) (s : Nat → AttemptResult) (p : Nat),
      s 0 = .connectErr true → s 1 = .response 200 none (.ok p) →
      send_request r s = (.success p, 2)) ∧
    (∀ (r : Bool) (s : Nat → AttemptResult),
      s 0 = .connectErr false → send_request r s = (.fatal .transport, 1)) := by
  refine ⟨?_, ?_, ?_, ?_, ?_, ?_, ?_⟩
  · intro r s
    exact sendLoop_count_le r s [0, 1, 2] none 0
  · intro r s status ra body h1 h2 h3
    simp [send_request, sendLoop, h3, h1, h2]
  · intro s body h
    simp [send_request, sendLoop, h, statusSuccess]
  · intro r s ra body p h0 hra h1
    rcases hra with rfl | hra
    · simp [send_request, sendLoop, h0, h1, statusSuccess, should_retry_status, MAX_RETRIES]
    · simp [send_request, sendLoop, h0, h1, hra, statusSuccess, should_retry_status, MAX_RETRIES]
  · intro r s ra ra2 body p h0 h1
    simp [send_request, sendLoop, h0, h1, statusSuccess, should_retry_status, MAX_RETRIES]
  · intro r s p h0 h1
    simp [send_request, sendLoop, h0, h1, statusSuccess, MAX_RETRIES]
  · intro r s h0
    simp [send_request, sendLoop, h0]

/-- C4 witness: a 503 then a 200 on the concrete script yields the 200 payload
in exactly two attempts. -/
theorem c4_send_request_retry_policy_witness :
    script503 0 = .response 503 none .parseErr ∧
    script503 1 = .response 200 none (.ok 7) ∧
    send_request false script503 = (.success 7, 2) :=
  ⟨rfl, rfl,
   c4_send_request_retry_policy.2.2.2.2.1 false script503 none none .parseErr 7 rfl rfl⟩

/-- C5 (counterexample): the single-tool-call claim quantifies over every
assistant response with two or more tool calls, but when the first call is an
enabled `submit`, `Agent::run` returns at the first call (agent.rs lines
192-199): the second call receives no tool-role message at all (the message
list is empty) and no warning is emitted, refuting "every subsequent tool call
receives a tool-role message carrying the fixed error". -/
theorem c5_single_tool_call_counterexample :
    (processToolCalls true cexExec [cexSubmitCall, cexOtherCall]).toolMessages = [] ∧
    (processToolCalls true cexExec [cexSubmitCall, cexOtherCall]).outcome =
      .returned "done" := ⟨rfl, rfl⟩

/-- C5 (amended): for every assistant response whose first tool call is not an
intercepted submit (that is, not named `submit` with submission enabled), only
the first tool call is handed to the tool collaborator; every subsequent call
receives, without invocation, a tool-role message whose content is the
structured error JSON with the fixed "multiple tool calls" text, and exactly
one warning item is emitted per extra call; the step loop then continues. When
the first call is an intercepted submit the run returns (or errors) at that
call and subsequent calls receive nothing. -/
theorem c5_single_tool_call_amended (submitEnabled : Bool) (exec : ToolCall → ExecResult)
    (first : ToolCall) (others : List ToolCall)
    (h : ¬(first.function.name = "submit" ∧ submitEnabled = true)) :
    (processToolCalls submitEnabled exec (first :: others)).dispatched = [first] ∧
    (processToolCalls submitEnabled exec (first :: others)).toolMessages =
      (first.id, match exec first with | .ok v => v | .err e => tool_error e) ::
        others.map (fun c => (c.id, tool_error multipleToolCallsMsg)) ∧
    (processToolCalls submitEnabled exec (first :: others)).events.count
      (Event.warningItem multipleToolCallsMsg) = others.length ∧
    (processToolCalls submitEnabled exec (first :: others)).outcome = .continued := by
  refine ⟨?_, ?_, ?_, ?_⟩
  · simp only [processToolCalls, if_neg h]
  · simp only [processToolCalls, if_neg h]
  · simp only [processToolCalls, if_neg h, List.count_append]
    rw [List.map_const', List.count_replicate_self]
    have h0 : Event.warningItem multipleToolCallsMsg ∉
        (if first.function.name = "apply_patch" then ([] : List Event)
          else [Event.commandStarted first.function.name]) := by
      split <;> simp
    simp [List.count_eq_zero.mpr h0, List.count_cons]
  · simp only [processToolCalls, if_neg h]

/-- C5 witness: a concrete shell call followed by one extra call dispatches
only the first and emits one warning. -/
theorem c5_single_tool_call_amended_witness :
    ¬(cexShellCall.function.name = "submit" ∧ (true : Bool) = true) ∧
    (processToolCalls true cexExec [cexShellCall, cexOtherCall]).dispatched = [cexShellCall] ∧
    (processToolCalls true cexExec [cexShellCall, cexOtherCall]).events.count
      (Event.warningItem multipleToolCallsMsg) = 1 :=
  ⟨by decide,
   (c5_single_tool_call_amended true cexExec cexShellCall [cexOtherCall] (by decide)).1,
   (c5_single_tool_call_amended true cexExec cexShellCall [cexOtherCall] (by decide)).2.2.1⟩

/-- C6: an assistant response whose first tool call is named `submit`, with
submission enabled and a parsable string `answer`, is intercepted before
generic dispatch: the run returns the answer (logging the agent message when
nonempty, then turn-completed), no call is handed to the tool collaborator,
and no generic dispatch event is produced; the result does not depend on the
execution oracle. -/
theorem c6_submit_short_circuit (exec : ToolCall → ExecResult) (first : ToolCall)
    (others : List ToolCall) (answer : String)
    (hname : first.function.name = "submit")
    (hparse : parse_submit_answer first.function.arguments = some answer) :
    processToolCalls true exec (first :: others) =
      ⟨.returned answer, [], [],
        (if answer.trim.isEmpty then [] else [Event.agentMessage answer]) ++
          [Event.turnCompleted]⟩ := by
  simp [processToolCalls, hname, hparse]

/-- C6 witness: the concrete submit call returns its answer with no dispatch. -/
theorem c6_submit_short_circuit_witness :
    cexSubmitCall.function.name = "submit" ∧
    parse_submit_answer cexSubmitCall.function.arguments = some "done" ∧
    processToolCalls true cexExec [cexSubmitCall] =
      ⟨.returned "done", [], [],
        (if "done".trim.isEmpty then [] else [Event.agentMessage "done"]) ++
          [Event.turnCompleted]⟩ :=
  ⟨rfl, by decide, c6_submit_short_circuit cexExec cexSubmitCall [] "done" rfl (by decide)⟩

/-- C7: when the dispatched first tool call fails, the error message is wrapped
by `tool_error` into the JSON object string with the single `error` field and
appended as a tool-role message carrying the call id, and the step loop
continues rather than returning an error from the run. -/
theorem c7_tool_failure_nonfatal (submitEnabled : Bool) (exec : ToolCall → ExecResult)
    (first : ToolCall) (others : List ToolCall) (emsg : String)
    (h : ¬(first.function.name = "submit" ∧ submitEnabled = true))
    (hexec : exec first = .err emsg) :
    (processToolCalls submitEnabled exec (first :: others)).outcome = .continued ∧
    (processToolCalls submitEnabled exec (first :: others)).toolMessages.head? =
      some (first.id, tool_error emsg) := by
  constructor
  · simp only [processToolCalls, if_neg h]
  · simp only [processToolCalls, if_neg h, hexec, List.head?_cons]

/-- C7 witness: a failing shell call produces the structured error tool message
and the loop continues. -/
theorem c7_tool_failure_nonfatal_witness :
    ¬(cexShellCall.function.name = "submit" ∧ (true : Bool) = true) ∧
    cexFailExec cexShellCall = .err "boom" ∧
    (processToolCalls true cexFailExec [cexShellCall]).outcome = .continued ∧
    (processToolCalls true cexFailExec [cexShellCall]).toolMessages.head? =
      some (cexShellCall.id, tool_error "boom") :=
  ⟨by decide, rfl,
   (c7_tool_failure_nonfatal true cexFailExec cexShellCall [] "boom" (by decide) rfl).1,
   (c7_tool_failure_nonfatal true cexFailExec cexShellCall [] "boom" (by decide) rfl).2⟩

/-- C8: with `max_steps = 0` the very first step check terminates the run
before the transport oracle is consulted, with the message naming the
configured limit and the warning-item plus turn-completed events; in general,
whenever the budget check fires, the step terminates with that message and the
result is independent of the transport oracle; the check fires whenever
elapsed steps reach `max_steps`, and whenever elapsed time reaches
`time_limit` with the step budget not yet exhausted. -/
theorem c8_budget_termination :
    (∀ (τ : Type) (transport : Unit → τ) (tl : Option Nat) (e : Nat),
      step_start (some 0) 0 tl e transport =
        .terminated ("Terminated: max_steps (" ++ toString 0 ++ ") reached.")
          [Event.warningItem ("Terminated: max_steps (" ++ toString 0 ++ ") reached."),
           Event.turnCompleted]) ∧
    (∀ (τ : Type) (t₁ t₂ : Unit → τ) (ms : Option Nat) (steps : Nat) (tl : Option Nat)
        (e : Nat) (msg : String), budget_check ms steps tl e = some msg →
      step_start ms steps tl e t₁ =
        .terminated msg [Event.warningItem msg, Event.turnCompleted] ∧
      step_start ms steps tl e t₁ = step_start ms steps tl e t₂) ∧
    (∀ (m steps : Nat) (tl : Option Nat) (e : Nat), m ≤ steps →
      budget_check (some m) steps tl e =
        some ("Terminated: max_steps (" ++ toString m ++ ") reached.")) ∧
    (∀ (steps l e : Nat), l ≤ e →
      budget_check none steps (some l) e = some "Terminated: time_limit reached.") ∧
    (∀ (m steps l e : Nat), steps < m → l ≤ e →
      budget_check (some m) steps (some l) e = some "Terminated: time_limit reached.") := by
  refine ⟨?_, ?_, ?_, ?_, ?_⟩
  · intro τ transport tl e
    simp [step_start, budget_check]
  · intro τ t₁ t₂ ms steps tl e msg h
    constructor
    · simp [step_start, h]
    · simp [step_start, h]
  · intro m steps tl e h
    simp [budget_check, h]
  · intro steps l e h
    simp [budget_check, time_check, h]
  · intro m steps l e h1 h2
    simp [budget_check, time_check, h2, Nat.not_le.mpr h1]

/-- C8 witness: the `max_steps = 0` scenario at concrete inputs. -/
theorem c8_budget_termination_witness :
    (0 : Nat) ≤ 0 ∧
    budget_check (some 0) 0 none 0 =
      some ("Terminated: max_steps (" ++ toString 0 ++ ") reached.") ∧
    step_start (some 0) 0 none 0 (fun _ => (0 : Nat)) =
      .terminated ("Terminated: max_steps (" ++ toString 0 ++ ") reached.")
        [Event.warningItem ("Terminated: max_steps (" ++ toString 0 ++ ") reached."),
         Event.turnCompleted] :=
  ⟨Nat.le_refl 0, c8_budget_termination.2.2.1 0 0 none 0 (Nat.le_refl 0),
   c8_budget_termination.1 Nat (fun _ => 0) none 0⟩

/-- C9 (counterexample): the claim states that a server-supplied `Retry-After`
value is converted to milliseconds as `seconds * 1000` and used verbatim, but
the source multiplies with `saturating_mul`: at the largest u64 delta-seconds
value the computed delay is the saturated `u64::MAX`, not `seconds * 1000`. -/
theorem c9_backoff_delay_counterexample :
    sleep_backoff_delay 0 (some u64Max) 0 ≠ u64Max * 1000 ∧
    sleep_backoff_delay 0 (some u64Max) 0 = u64Max := by
  constructor
  · simp only [sleep_backoff_delay, u64Max]
    norm_num
  · simp only [sleep_backoff_delay, u64Max]
    norm_num

/-- C9 (amended): without `Retry-After` the delay is
`min (250 * 2 ^ min n 10) 3000` plus a jitter of `now % 50` (0 to 49)
milliseconds; with a `Retry-After` of `s` seconds the delay is the u64
saturating product `s * 1000` plus the jitter, the sum saturating likewise —
in particular exactly `s * 1000` plus jitter whenever `s * 1000 + 49` fits in
u64, and pinned at `u64Max` once `s * 1000` reaches the u64 range bound. -/
theorem c9_backoff_delay_amended :
    (∀ attempt now : Nat, sleep_backoff_delay attempt none now =
        min (250 * 2 ^ min attempt 10) 3000 + now % 50) ∧
    (∀ attempt s now : Nat, s * 1000 + 49 ≤ u64Max →
        sleep_backoff_delay attempt (some s) now = s * 1000 + now % 50) ∧
    (∀ attempt s now : Nat, u64Max ≤ s * 1000 →
        sleep_backoff_delay attempt (some s) now = u64Max) ∧
    (∀ now : Nat, now % 50 < 50) := by
  have hmax : u64Max = 18446744073709551615 := by norm_num [u64Max]
  refine ⟨?_, ?_, ?_, ?_⟩
  · intro attempt now
    have h1 : 2 ^ min attempt 10 ≤ 2 ^ 10 :=
      Nat.pow_le_pow_right (by norm_num) (Nat.min_le_right _ _)
    have h2 : (2 : Nat) ^ 10 = 1024 := by norm_num
    simp only [sleep_backoff_delay, hmax]
    omega
  · intro attempt s now h
    rw [hmax] at h
    simp only [sleep_backoff_delay, hmax]
    omega
  · intro attempt s now h
    rw [hmax] at h
    simp only [sleep_backoff_delay, hmax]
    omega
  · intro now
    exact Nat.mod_lt _ (by norm_num)

/-- C9 witness: a 5-second `Retry-After` at wall-clock remainder 7 sleeps
exactly 5000 plus 7 milliseconds. -/
theorem c9_backoff_delay_amended_witness :
    5 * 1000 + 49 ≤ u64Max ∧
    sleep_backoff_delay 1 (some 5) 7 = 5 * 1000 + 7 % 50 :=
  ⟨by norm_num [u64Max],
   c9_backoff_delay_amended.2.1 1 5 7 (by norm_num [u64Max])⟩

/-- C10: when the first tool call is named `submit`, submission is enabled, and
its arguments do not parse as a JSON object with a string `answer` field, the
run aborts with an error — no tool-role message is appended and no event is
emitted (in particular no error or turn-failed event, which only the transport
failure path emits); by contrast a generic tool whose execution fails is
non-fatal: the failure becomes a `tool_error` tool message and the loop
continues. -/
theorem c10_submit_parse_failure_fatal :
    (∀ (exec : ToolCall → ExecResult) (first : ToolCall) (others : List ToolCall),
      first.function.name = "submit" →
      parse_submit_answer first.function.arguments = none →
      processToolCalls true exec (first :: others) = ⟨.errored, [], [], []⟩) ∧
    (∀ (exec : ToolCall → ExecResult) (first : ToolCall) (others : List ToolCall)
        (emsg : String),
      first.function.name ≠ "submit" → exec first = .err emsg →
      (processToolCalls true exec (first :: others)).outcome = .continued ∧
      (processToolCalls true exec (first :: others)).toolMessages.head? =
        some (first.id, tool_error emsg)) := by
  constructor
  · intro exec first others hname hparse
    simp [processToolCalls, hname, hparse]
  · intro exec first others emsg hname hexec
    constructor
    · simp [processToolCalls, hname]
    · simp [processToolCalls, hname, hexec]

/-- C10 witness: a submit call whose `answer` is a number aborts the run with
no message and no event. -/
theorem c10_submit_parse_failure_fatal_witness :
    cexBadSubmitCall.function.name = "submit" ∧
    parse_submit_answer cexBadSubmitCall.function.arguments = none ∧
    processToolCalls true cexExec [cexBadSubmitCall] = ⟨.errored, [], [], []⟩ :=
  ⟨rfl, by decide,
   c10_submit_parse_failure_fatal.1 cexExec cexBadSubmitCall [] rfl (by decide)⟩
